import Mathlib

/-!
Verification of the protractor-retry orchestrator (src/index.js and the
logging helper). The JavaScript source is embedded shallowly: the output
parser becomes a pure scanner over character lists, the retry loop becomes
a structurally recursive function over the remaining retry budget, and the
Jasmine spec filter becomes a pure decision function over an install-time
snapshot of the retry file.
-/

namespace ProtractorRetry

/-- Character class of the JavaScript regex class [\s] (whitespace), restricted
to the characters that can occur here: space, tab, newline, carriage return,
vertical tab, form feed and no-break space. Used by every trim and every
[\s]+ in the three patterns of parseOutput (src/index.js lines 46-48). -/
def isSpaceChar (c : Char) : Bool :=
  c = ' ' || c = '\t' || c = '\n' || c = '\x0d' || c = '\x0b' || c = '\x0c' || c = ' '

/-- Character class of the JavaScript regex class [\w]: ASCII letters, digits
and underscore. -/
def isWordChar (c : Char) : Bool :=
  c.isAlpha || c.isDigit || c = '_'

/-- JavaScript String.prototype.trim: drop whitespace from both ends. -/
def trimChars (l : List Char) : List Char :=
  ((l.dropWhile isSpaceChar).reverse.dropWhile isSpaceChar).reverse

/-- JavaScript String.prototype.split with separator newline: always returns
at least one segment, and the empty string splits to one empty segment. -/
def splitLines : List Char → List (List Char)
  | [] => [[]]
  | c :: rest =>
    if c = '\n' then [] :: splitLines rest
    else
      match splitLines rest with
      | [] => [[c]]
      | l :: ls => (c :: l) :: ls

/-- Consume one expected character from the front, as in matching a literal
character of a regex. -/
def expectChar (c : Char) : List Char → Option (List Char)
  | [] => none
  | d :: rest => if d = c then some rest else none

/-- Consume a nonempty run of whitespace, as in the greedy regex piece [\s]+.
The characters that may follow in the three patterns (letters, digits, an
asterisk) are never whitespace, so maximal munch is exact here. -/
def expectSpaces : List Char → Option (List Char)
  | [] => none
  | c :: rest => if isSpaceChar c then some (rest.dropWhile isSpaceChar) else none

/-- Consume a nonempty run of word characters, as in the greedy regex piece
[\w]+. The following piece is [\s]+, disjoint from [\w], so maximal munch is
exact here as well. -/
def expectWord : List Char → Option (List Char)
  | [] => none
  | c :: rest => if isWordChar c then some (rest.dropWhile isWordChar) else none

/-- Consume an expected literal string from the front. -/
def dropLit : List Char → List Char → Option (List Char)
  | [], l => some l
  | _ :: _, [] => none
  | c :: cs, d :: ds => if d = c then dropLit cs ds else none

/-- The failures block start pattern of src/index.js line 46, the regex
`^\*[\s]+Failures[\s]+\*` (not anchored at the end of the line). -/
def isFailuresMarker (l : List Char) : Bool :=
  match expectChar '*' l with
  | none => false
  | some r1 =>
    match expectSpaces r1 with
    | none => false
    | some r2 =>
      match dropLit "Failures".data r2 with
      | none => false
      | some r3 =>
        match expectSpaces r3 with
        | none => false
        | some r4 =>
          match expectChar '*' r4 with
          | none => false
          | some _ => true

/-- The generic section marker pattern of src/index.js line 48, the regex
`^\*[\s]+[\w]+[\s]+\*` (not anchored at the end of the line). -/
def isOthersMarker (l : List Char) : Bool :=
  match expectChar '*' l with
  | none => false
  | some r1 =>
    match expectSpaces r1 with
    | none => false
    | some r2 =>
      match expectWord r2 with
      | none => false
      | some r3 =>
        match expectSpaces r3 with
        | none => false
        | some r4 =>
          match expectChar '*' r4 with
          | none => false
          | some _ => true

/-- The numbered failure pattern of src/index.js line 47, the regex
`^[0-9]+\)[\s]+(.*)$`; returns the capture group, the remainder of the line
after the digits, the closing parenthesis and the whitespace run. -/
def matchFailedSpec (l : List Char) : Option (List Char) :=
  match l.takeWhile Char.isDigit with
  | [] => none
  | _ :: _ =>
    match l.dropWhile Char.isDigit with
    | ')' :: r => expectSpaces r
    | _ => none

/-- The two-state line scanner of src/index.js lines 66-89. The Bool state is
true while inside a failures block (the inner loop of the source): there a
section marker line closes the block, and otherwise a numbered failure line
contributes its captured name. Outside a block (the outer loop) only the
failures marker is inspected. Each line is trimmed before matching, as in
lines 67 and 73 of the source. -/
def scanLines : Bool → List (List Char) → List (List Char)
  | _, [] => []
  | false, l :: rest =>
    if isFailuresMarker (trimChars l) then scanLines true rest
    else scanLines false rest
  | true, l :: rest =>
    if isOthersMarker (trimChars l) then scanLines false rest
    else
      match matchFailedSpec (trimChars l) with
      | some name => name :: scanLines true rest
      | none => scanLines true rest

/-- parseOutput of src/index.js lines 42-92. Both streams are trimmed as whole
strings and split on newlines; the guard on an empty stdout line list and the
guard on a stderr line list longer than one line each return the parse-failed
sentinel (none); otherwise the scanner collects the failed spec names. -/
def parseOutput (stdout stderr : String) : Option (List String) :=
  let outLines := splitLines (trimChars stdout.data)
  let errLines := splitLines (trimChars stderr.data)
  if outLines.length ≤ 0 then none
  else if errLines.length > 1 then none
  else some ((scanLines false outLines).map (fun n => String.mk n))

/-- Lowercasing as used by toLowerCase in the spec filter comparison of
src/index.js line 261, restricted to the per-character case mapping. -/
def lowerStr (s : String) : String :=
  String.mk (s.data.map Char.toLower)

/-- Delegation to the previously installed Jasmine spec filter: the source
expression `originalFilter ? originalFilter(spec) : true` of src/index.js
lines 257 and 262. -/
def applyOriginal (originalFilter : Option (String → Bool)) (name : String) : Bool :=
  match originalFilter with
  | some f => f name
  | none => true

/-- The loop of src/index.js lines 260-264: return the original filter result
at the first case-insensitive match of the full spec name against a retry
entry, and false when no entry matches (line 268). -/
def specFilterLoop (retrySpecs : List String) (originalFilter : Option (String → Bool))
    (name : String) : Bool :=
  match retrySpecs with
  | [] => false
  | r :: rest =>
    if lowerStr r = lowerStr name then applyOriginal originalFilter name
    else specFilterLoop rest originalFilter name

/-- The replacement spec filter installed at src/index.js lines 255-269.
retrySpecs is the install-time snapshot of the retry file (none when reading
the file threw), isRetryRun the browser.params.isRetryRun flag, name the full
spec name. -/
def specFilter (isRetryRun : Bool) (retrySpecs : Option (List String))
    (originalFilter : Option (String → Bool)) (name : String) : Bool :=
  match retrySpecs with
  | none => applyOriginal originalFilter name
  | some specs =>
    if isRetryRun then specFilterLoop specs originalFilter name
    else applyOriginal originalFilter name

/-- The install-time read of src/index.js line 246: when the retry file is
present its content is split on newlines (no trimming); when absent the
snapshot stays undefined (none). -/
def loadRetrySpecs (file : Option String) : Option (List String) :=
  match file with
  | none => none
  | some content => some ((splitLines content.data).map (fun n => String.mk n))

set_option linter.unusedVariables false in
/-- The admission decision made for one spec while the external process runs.
installJasmineSpecFilter reads the retry file exactly once, at line 246, and
the closure of lines 255-269 never touches the file system again, so the
decision is computed from the install-time snapshot fileAtInstall alone; the
file state at query time, fileNow, does not occur in the body, mirroring its
absence from the source closure. -/
def admissionAt (fileAtInstall : Option String) (fileNow : Option String)
    (isRetryRun : Bool) (originalFilter : Option (String → Bool)) (name : String) : Bool :=
  specFilter isRetryRun (loadRetrySpecs fileAtInstall) originalFilter name

/-- Outcome of one runProtractor call as seen by the retry loop: either the
binary check of src/index.js line 95 fails before any spawn, or the child is
spawned and the promise resolves with a parse result, where none stands for a
timeout kill, an exit code other than 0 or 1, or a failed parse (lines
133-143). -/
inductive RunOutcome where
  | missingBinary : RunOutcome
  | finished : Option (List String) → RunOutcome
deriving DecidableEq

/-- Scripted behaviour of one attempt: whether the prerun hook rejects, what
the supervised run produces, and whether the postrun hook rejects. -/
structure AttemptSpec where
  prerunFails : Bool
  outcome : RunOutcome
  postrunFails : Bool
deriving DecidableEq

/-- How the orchestrator process ends. success is the normal return of the
promise chain with retry = false; the others are the process.exit calls of
src/index.js: noTargets is exit(4) at line 152, exhausted exit(2) at line
164, missingBinary exit(1) at line 97, fatalError exit(3) at line 237
reached through the rejection handler. -/
inductive ExitKind where
  | success : ExitKind
  | noTargets : ExitKind
  | exhausted : ExitKind
  | missingBinary : ExitKind
  | fatalError : ExitKind
deriving DecidableEq

/-- Observable outcome of a whole orchestrator run: how it ended, the retry
file content at that moment (none = absent), how many times the child process
was spawned, and the milliseconds handed to Q.delay at each pause. -/
structure OrchResult where
  exit : ExitKind
  retryFile : Option String
  invocations : Nat
  pausesMs : List Nat
deriving DecidableEq

/-- Milliseconds slept between retries: src/index.js line 221 passes the raw
retry-pause option value to Q.delay, whose argument is in milliseconds. -/
def retryDelayMillis (retryPause : Nat) : Nat :=
  retryPause

/-- Milliseconds armed for the kill timer: src/index.js line 113 multiplies
the timeout option, given in seconds, by 1000 before calling setTimeout. -/
def killTimeoutMillis (timeoutSecs : Nat) : Nat :=
  timeoutSecs * 1000

/-- The recursive retry loop runTests of src/index.js lines 149-239, indexed
by the remaining budget (the mutable maxRetries counter before its decrement
at line 155, so budget 0 takes the exhausted exit). env scripts the attempt
reached after inv spawns. Each branch records the retry file content and exit
path of the corresponding source line: exit(4) leaves the file untouched
(line 152), exhaustion unlinks it (line 160), a rejected prerun or postrun
promise and a null parse result all reach the rejection handler which unlinks
and exits 3 (lines 228-237) - a null parse result does so because line 203
evaluates failedSpecs.length on null, throwing a TypeError into the chain -
the missing binary exits 1 without unlinking (line 97), an empty failure list
unlinks and stops retrying (lines 203-211), and a nonempty list is written to
the file (line 215), Q.delay is given the raw pause value (line 221), and the
loop recurses (line 226). -/
def runTests (env : Nat → AttemptSpec) (hasTargets : Bool) (retryPause : Nat) :
    Nat → Option String → Nat → List Nat → OrchResult
  | 0, file, inv, pauses =>
    if hasTargets = false then ⟨ExitKind.noTargets, file, inv, pauses⟩
    else ⟨ExitKind.exhausted, none, inv, pauses⟩
  | Nat.succ b, file, inv, pauses =>
    if hasTargets = false then ⟨ExitKind.noTargets, file, inv, pauses⟩
    else if (env inv).prerunFails then ⟨ExitKind.fatalError, none, inv, pauses⟩
    else
      match (env inv).outcome with
      | RunOutcome.missingBinary => ⟨ExitKind.missingBinary, file, inv, pauses⟩
      | RunOutcome.finished parsed =>
        if (env inv).postrunFails then ⟨ExitKind.fatalError, none, inv + 1, pauses⟩
        else
          match parsed with
          | none => ⟨ExitKind.fatalError, none, inv + 1, pauses⟩
          | some [] => ⟨ExitKind.success, none, inv + 1, pauses⟩
          | some (sp :: sps) =>
            runTests env hasTargets retryPause b
              (some (String.intercalate "\n" (sp :: sps))) (inv + 1)
              (pauses ++ [retryDelayMillis retryPause])

/-- A whole orchestrator run: runWithRetry of the module surface, starting
with the configured maximum retry count as budget, a possibly stale retry
file, zero spawns and no pauses taken. -/
def runWithRetry (env : Nat → AttemptSpec) (hasTargets : Bool) (retryPause : Nat)
    (maxRetries : Nat) (initFile : Option String) : OrchResult :=
  runTests env hasTargets retryPause maxRetries initFile 0 []

theorem matchFailedSpec_not_others (t n : List Char) (h : matchFailedSpec t = some n) :
    isOthersMarker t = false := by
  cases t with
  | nil => simp [matchFailedSpec] at h
  | cons c rest =>
    by_cases hc : c = '*'
    · subst hc
      have hd : Char.isDigit '*' = false := by decide
      simp [matchFailedSpec, List.takeWhile_cons, hd] at h
    · simp [isOthersMarker, expectChar, hc]

theorem scanLines_false_append (P Xs : List (List Char))
    (h : ∀ l ∈ P, isFailuresMarker (trimChars l) = false) :
    scanLines false (P ++ Xs) = scanLines false Xs := by
  induction P with
  | nil => rfl
  | cons a P ih =>
    have ha : isFailuresMarker (trimChars a) = false := h a (List.mem_cons_self a P)
    rw [List.cons_append]
    simp only [scanLines, ha]
    exact ih (fun l hl => h l (List.mem_cons_of_mem a hl))

theorem scanLines_false_nil (P : List (List Char))
    (h : ∀ l ∈ P, isFailuresMarker (trimChars l) = false) :
    scanLines false P = [] := by
  have h2 := scanLines_false_append P [] h
  simpa using h2

theorem scanLines_true_collect (body names Ys : List (List Char))
    (h : List.Forall₂ (fun l nm => matchFailedSpec (trimChars l) = some nm) body names) :
    scanLines true (body ++ Ys) = names ++ scanLines true Ys := by
  induction h with
  | nil => rfl
  | @cons l nm body2 names2 h1 h2 ih =>
    have hno : isOthersMarker (trimChars l) = false := matchFailedSpec_not_others _ _ h1
    simp only [List.cons_append, scanLines, hno, h1]
    simp [ih]

/-- C5: for every stdout whose trimmed line list consists of a prefix free of
failures markers, a failures block start marker, k lines each matching the
numbered failure pattern with captured names, a section marker, and a
remainder free of failures markers, and every stderr trimming to at most one
line, parseOutput returns exactly those k captured names, in print order,
each taken from the trimmed line. -/
theorem parseOutput_collects_failures (stdout stderr : String)
    (P body rest : List (List Char)) (m s : List Char) (names : List (List Char))
    (hsplit : splitLines (trimChars stdout.data) = P ++ (m :: (body ++ (s :: rest))))
    (hP : ∀ l ∈ P, isFailuresMarker (trimChars l) = false)
    (hm : isFailuresMarker (trimChars m) = true)
    (hbody : List.Forall₂ (fun l nm => matchFailedSpec (trimChars l) = some nm) body names)
    (hs : isOthersMarker (trimChars s) = true)
    (hrest : ∀ l ∈ rest, isFailuresMarker (trimChars l) = false)
    (herr : (splitLines (trimChars stderr.data)).length ≤ 1) :
    parseOutput stdout stderr = some (names.map (fun n => String.mk n)) := by
  simp only [parseOutput]
  rw [hsplit]
  have h1 : ¬ ((P ++ (m :: (body ++ (s :: rest)))).length ≤ 0) := by
    simp [List.length_append]
  have h2 : ¬ ((splitLines (trimChars stderr.data)).length > 1) := by omega
  rw [if_neg h1, if_neg h2]
  have e1 : scanLines false (P ++ (m :: (body ++ (s :: rest))))
      = scanLines true (body ++ (s :: rest)) := by
    rw [scanLines_false_append P _ hP]
    simp [scanLines, hm]
  have e2 : scanLines true (s :: rest) = [] := by
    simp [scanLines, hs, scanLines_false_nil rest hrest]
  rw [e1, scanLines_true_collect _ _ _ hbody, e2, List.append_nil]

/-- Witness for C5 at the concrete transcript of a run with two failures. -/
theorem parseOutput_collects_failures_witness :
    parseOutput "* Failures *\n1) spec one\n2) spec two\n* Summary *" ""
      = some ["spec one", "spec two"] := by
  have h := parseOutput_collects_failures
    "* Failures *\n1) spec one\n2) spec two\n* Summary *" ""
    [] ["1) spec one".data, "2) spec two".data] []
    "* Failures *".data "* Summary *".data
    ["spec one".data, "spec two".data]
    (by decide) (by simp) (by decide)
    (List.Forall₂.cons (by decide) (List.Forall₂.cons (by decide) List.Forall₂.nil))
    (by decide) (by simp) (by decide)
  simpa using h

/-- C6: parseOutput applied to an empty stdout does not signal a parse
failure; the guard on an empty line list of src/index.js line 52 is dead
because a split always yields at least one segment, so the empty stdout with
a clean stderr parses to the empty list, which the loop treats as success. -/
theorem parseOutput_empty_stdout_succeeds : parseOutput "" "" = some [] := by
  decide

theorem specFilterLoop_iff (specs : List String) (orig : Option (String → Bool)) (name : String) :
    specFilterLoop specs orig name = true ↔
      (∃ r ∈ specs, lowerStr r = lowerStr name) ∧ applyOriginal orig name = true := by
  induction specs with
  | nil => simp [specFilterLoop]
  | cons a rest ih =>
    by_cases ha : lowerStr a = lowerStr name
    · simp [specFilterLoop, ha]
    · simp [specFilterLoop, ha, ih]

theorem specFilterLoop_no_match (specs : List String) (orig : Option (String → Bool))
    (name : String) (h : ∀ r ∈ specs, ¬ lowerStr r = lowerStr name) :
    specFilterLoop specs orig name = false := by
  induction specs with
  | nil => rfl
  | cons a rest ih =>
    have ha : ¬ lowerStr a = lowerStr name := h a (List.mem_cons_self a rest)
    simp only [specFilterLoop, if_neg ha]
    exact ih (fun r hr => h r (List.mem_cons_of_mem a hr))

/-- C7: on a retry-flagged invocation with a present retry snapshot, the
installed spec filter admits a case exactly when its full name equals one of
the snapshot entries up to lowercasing and the previously installed policy
also admits it; and when no entry matches, the result is false whatever the
underlying policy is, so that policy is never consulted for suppressed
cases. -/
theorem specFilter_retry_admission (specs : List String) (orig : Option (String → Bool))
    (name : String) :
    (specFilter true (some specs) orig name = true ↔
      (∃ r ∈ specs, lowerStr r = lowerStr name) ∧ applyOriginal orig name = true) ∧
    ((∀ r ∈ specs, ¬ lowerStr r = lowerStr name) →
      ∀ f : String → Bool, specFilter true (some specs) (some f) name = false) := by
  constructor
  · show specFilterLoop specs orig name = true ↔ _
    exact specFilterLoop_iff specs orig name
  · intro hnone f
    show specFilterLoop specs (some f) name = false
    exact specFilterLoop_no_match specs (some f) name hnone

/-- Witness for C7 at the retry state of the specification example: the
case-insensitive match is admitted and the unlisted case is suppressed even
under an underlying policy that admits everything. -/
theorem specFilter_retry_admission_witness :
    specFilter true (some ["Suite A > does X", "Suite B > does Y"]) none "suite a > does x" = true ∧
    specFilter true (some ["Suite A > does X", "Suite B > does Y"])
      (some (fun _ => true)) "Suite C > does Z" = false := by
  constructor
  · exact (specFilter_retry_admission ["Suite A > does X", "Suite B > does Y"] none
      "suite a > does x").1.mpr ⟨⟨"Suite A > does X", by simp, by decide⟩, by decide⟩
  · exact (specFilter_retry_admission ["Suite A > does X", "Suite B > does Y"]
      (some (fun _ => true)) "Suite C > does Z").2 (by decide) (fun _ => true)

/-- C10: the admission decision for a spec is the same whatever the retry
file holds at query time, and equals the pure function of the install-time
snapshot, the retry flag, the name, and the underlying policy: the file is
read once at installation and never again. -/
theorem admission_ignores_later_file_state (fileAtInstall f1 f2 : Option String)
    (isRetryRun : Bool) (orig : Option (String → Bool)) (name : String) :
    admissionAt fileAtInstall f1 isRetryRun orig name
      = admissionAt fileAtInstall f2 isRetryRun orig name ∧
    admissionAt fileAtInstall f1 isRetryRun orig name
      = specFilter isRetryRun (loadRetrySpecs fileAtInstall) orig name :=
  ⟨rfl, rfl⟩

theorem runTests_invocations_le (env : Nat → AttemptSpec) (ht : Bool) (p : Nat) :
    ∀ (b : Nat) (file : Option String) (inv : Nat) (pauses : List Nat),
      (runTests env ht p b file inv pauses).invocations ≤ inv + b := by
  intro b
  induction b with
  | zero =>
    intro file inv pauses
    simp only [runTests]
    split
    · simp
    · simp
  | succ b ih =>
    intro file inv pauses
    simp only [runTests]
    split
    · simp
    · split
      · simp
      · split
        · simp
        · split
          · simp
          · split
            · simp
            · simp
            · exact le_trans (ih _ _ _) (by omega)

/-- C3: whatever the scripted attempts do, an orchestrator run spawns the
child process at most maxRetries + 1 times. The code in fact spawns at most
maxRetries times, which is within the claimed cap. -/
theorem runWithRetry_invocation_cap (env : Nat → AttemptSpec) (hasTargets : Bool)
    (retryPause maxRetries : Nat) (initFile : Option String) :
    (runWithRetry env hasTargets retryPause maxRetries initFile).invocations ≤ maxRetries + 1 := by
  have h := runTests_invocations_le env hasTargets retryPause maxRetries initFile 0 []
  have h2 : (runWithRetry env hasTargets retryPause maxRetries initFile).invocations
      ≤ 0 + maxRetries := h
  omega

/-- C2 counterexample: with maximum retry count 0 and a child that would
succeed immediately, the orchestrator performs zero subprocess invocations,
not the claimed one: the counter is decremented before the first run and the
exhausted exit is taken at once. -/
theorem runWithRetry_zero_budget_no_attempt :
    (runWithRetry (fun _ => ⟨false, RunOutcome.finished (some []), false⟩)
        true 0 0 none).invocations = 0 ∧
    ¬ (runWithRetry (fun _ => ⟨false, RunOutcome.finished (some []), false⟩)
        true 0 0 none).invocations = 1 := by
  decide

/-- C2 amended: a maximum retry count of m yields at most m subprocess
invocations, and a maximum retry count of 0 performs no attempt at all,
terminating at once through the exhausted exit. -/
theorem runWithRetry_attempt_budget (env : Nat → AttemptSpec) (retryPause maxRetries : Nat)
    (initFile : Option String) :
    (runWithRetry env true retryPause maxRetries initFile).invocations ≤ maxRetries ∧
    (runWithRetry env true retryPause 0 initFile).exit = ExitKind.exhausted ∧
    (runWithRetry env true retryPause 0 initFile).invocations = 0 := by
  refine ⟨?_, rfl, rfl⟩
  have h := runTests_invocations_le env true retryPause maxRetries initFile 0 []
  have h2 : (runWithRetry env true retryPause maxRetries initFile).invocations
      ≤ 0 + maxRetries := h
  omega

theorem runTests_terminal_file (env : Nat → AttemptSpec) (ht : Bool) (p : Nat) :
    ∀ (b : Nat) (file : Option String) (inv : Nat) (pauses : List Nat),
      (runTests env ht p b file inv pauses).retryFile = none ∨
      (runTests env ht p b file inv pauses).exit = ExitKind.missingBinary ∨
      (runTests env ht p b file inv pauses).exit = ExitKind.noTargets := by
  intro b
  induction b with
  | zero =>
    intro file inv pauses
    simp only [runTests]
    split
    · right; right; rfl
    · left; rfl
  | succ b ih =>
    intro file inv pauses
    simp only [runTests]
    split
    · right; right; rfl
    · split
      · left; rfl
      · split
        · right; left; rfl
        · split
          · left; rfl
          · split
            · left; rfl
            · left; rfl
            · exact ih _ _ _

/-- C4 counterexample: when the first attempt leaves one failing spec and the
binary has disappeared by the second attempt, the process terminates through
the missing-binary abort of src/index.js line 97 with the retry file still
present, because that exit path never unlinks it. -/
theorem runWithRetry_missing_binary_keeps_file :
    (runWithRetry (fun i => if i = 0
        then ⟨false, RunOutcome.finished (some ["suite a > does x"]), false⟩
        else ⟨false, RunOutcome.missingBinary, false⟩) true 0 3 none).exit
      = ExitKind.missingBinary ∧
    (runWithRetry (fun i => if i = 0
        then ⟨false, RunOutcome.finished (some ["suite a > does x"]), false⟩
        else ⟨false, RunOutcome.missingBinary, false⟩) true 0 3 none).retryFile
      = some "suite a > does x" := by
  decide

/-- C4 amended: at every termination the retry file is absent, except through
the missing-binary abort and the no-test-targets abort, which leave the file
location untouched; success, exhaustion and the unexpected-error exit always
clear it first. -/
theorem runWithRetry_terminal_file_state (env : Nat → AttemptSpec) (hasTargets : Bool)
    (retryPause maxRetries : Nat) (initFile : Option String) :
    (runWithRetry env hasTargets retryPause maxRetries initFile).retryFile = none ∨
    (runWithRetry env hasTargets retryPause maxRetries initFile).exit = ExitKind.missingBinary ∨
    (runWithRetry env hasTargets retryPause maxRetries initFile).exit = ExitKind.noTargets :=
  runTests_terminal_file env hasTargets retryPause maxRetries initFile 0 []

/-- C1: an attempt whose supervised run resolves to the null sentinel (a
parse failure, a timeout kill, or an exit code other than 0 and 1 all resolve
to null in src/index.js lines 133-143) makes the orchestrator terminate hard:
line 203 evaluates the length of null, the thrown TypeError lands in the
rejection handler, the retry file is unlinked and the process exits with the
fatal status after a single invocation, instead of proceeding to the next
retry as claimed. -/
theorem parse_failure_exits_fatally :
    runWithRetry (fun _ => ⟨false, RunOutcome.finished none, false⟩) true 0 3 none
      = ⟨ExitKind.fatalError, none, 1, []⟩ := by
  decide

/-- C8: whenever an attempt yields a nonempty failed spec list and both hooks
settle cleanly, the loop continues into the next attempt with the retry file
overwritten to exactly those names joined by single newlines, in discovery
order, whatever the file held before, and with the pause taken after the
write. -/
theorem retry_persists_failed_specs (env : Nat → AttemptSpec) (p b : Nat)
    (file : Option String) (inv : Nat) (pauses : List Nat) (sp : String) (sps : List String)
    (h : env inv = ⟨false, RunOutcome.finished (some (sp :: sps)), false⟩) :
    runTests env true p (b + 1) file inv pauses
      = runTests env true p b (some (String.intercalate "\n" (sp :: sps))) (inv + 1)
          (pauses ++ [retryDelayMillis p]) := by
  simp [runTests, h]

/-- Witness for C8: an attempt failing the specs a and b overwrites the stale
retry file with the two names joined by a newline before the next attempt. -/
theorem retry_persists_failed_specs_witness :
    runTests (fun _ => ⟨false, RunOutcome.finished (some ["a", "b"]), false⟩)
        true 7 2 (some "old") 0 []
      = runTests (fun _ => ⟨false, RunOutcome.finished (some ["a", "b"]), false⟩)
        true 7 1 (some "a\nb") 1 [7] :=
  retry_persists_failed_specs _ 7 1 (some "old") 0 [] "a" ["b"] rfl

/-- C9: the pause honoured between persisting the failed specs and the next
attempt is the configured number interpreted as milliseconds, not seconds:
src/index.js line 221 hands the raw option value to Q.delay, although the log
line above it announces seconds and the kill timeout of line 113 is converted
to milliseconds by multiplying by 1000. A configured pause of 5 therefore
sleeps 5 milliseconds, not 5 seconds. -/
theorem retry_pause_milliseconds :
    (runWithRetry (fun i => if i = 0 then ⟨false, RunOutcome.finished (some ["a"]), false⟩
        else ⟨false, RunOutcome.finished (some []), false⟩) true 5 3 none).pausesMs
      = [retryDelayMillis 5] ∧
    retryDelayMillis 5 = 5 ∧ killTimeoutMillis 5 = 5000 ∧
    ¬ retryDelayMillis 5 = 5 * 1000 := by
  decide

end ProtractorRetry
